import Mathlib

/-!
Shallow embedding of `TireProject.py`'s change-detection routine
`compare_zip_md5(url, destination)` and the string transform `clean_date`.

Modelling choices, traced from the source:

* The filesystem state under `destination` is abstracted to the three
  artifacts the routine touches: the fingerprint record `current_md5.txt`
  (`none` when absent), the extracted files (an association list from entry
  name to content), and the transient `latest.zip`.
* The HTTP fetch is abstracted to its two relevant outcomes: success with
  an archive (a listing-ordered list of (name, content) entries), or an
  error status.  On an error status `requests.raise_for_status` raises,
  the `except` clause only prints, the 404 body is written to `latest.zip`,
  and `zipfile.ZipFile` then raises an uncaught `BadZipFile`: the run ends
  with an uncaught exception and `latest.zip` left behind.
* `hashlib.md5` is external to the repository; the embedding is parametric
  over the digest function `md5 : String → String` (applied to an entry's
  content).  The routine only ever compares digests for equality, so every
  behaviour of interest is captured at this level; closed instances use the
  collision-free `hashId`.
* The Python function can return `True`, `False`, fall through returning
  `None` (the `except IndexError` path), or die with an uncaught exception
  (`Outcome.crash`).  In the `except FileNotFoundError` handler on an empty
  archive, `open(..., "w+")` first creates/truncates `current_md5.txt`
  (leaving it empty) and then `comparison_table[0]` raises an IndexError
  that no surrounding handler catches.
* For the temporal claim the run also yields the ordered list of mutation
  events `extractall` / "write digest to current_md5.txt".
-/

namespace TireProject

/-- Content of the transient `latest.zip`: either a well-formed zip holding
the given entries, or raw non-archive bytes (e.g. an HTTP error body). -/
inductive TempFile where
  | zipOf (entries : List (String × String))
  | raw (body : String)
deriving DecidableEq, Repr

/-- The artifacts of the destination directory that `compare_zip_md5`
reads or writes. -/
structure DestState where
  current_md5 : Option String
  files : List (String × String)
  latest_zip : Option TempFile
deriving DecidableEq, Repr

/-- Result of the HTTP GET: a successful download of an archive with the
given entries, or an error status (e.g. 404) whose body is not a zip. -/
inductive FetchResult where
  | ok (entries : List (String × String))
  | err404 (body : String)
deriving DecidableEq, Repr

/-- What the Python call does: return `True`, return `False`, fall off the
function returning `None`, or terminate with an uncaught exception. -/
inductive Outcome where
  | retTrue
  | retFalse
  | retNone
  | crash
deriving DecidableEq, Repr

/-- Observable mutation events of one invocation, in program order. -/
inductive Event where
  | extract
  | writeRecord (digest : String)
deriving DecidableEq, Repr

/-- Event is a digest write to `current_md5.txt`. -/
def isWrite : Event → Bool
  | .extract => false
  | .writeRecord _ => true

/-- Writing one extracted entry: overwrite the file of the same name when
present, else add it. -/
def updateFile : List (String × String) → String → String → List (String × String)
  | [], n, c => [(n, c)]
  | (m, d) :: rest, n, c =>
      if m = n then (n, c) :: rest else (m, d) :: updateFile rest n c

/-- `ZipFile.extractall(destination)`: write every entry in listing order,
overwriting existing files of the same name. -/
def extractAll (files : List (String × String)) (entries : List (String × String)) :
    List (String × String) :=
  entries.foldl (fun fs e => updateFile fs e.1 e.2) files

/-- Look up the content of a file by name. -/
def getFile : List (String × String) → String → Option String
  | [], _ => none
  | (m, d) :: rest, n => if m = n then some d else getFile rest n

/-- The core routine of `TireProject.py` (lines 31–93).  `md5` digests an
entry's content, `fetch` is the outcome of the HTTP GET, `s` the prior
destination state.  Returns the Python outcome, the posterior state and the
mutation-event trace. -/
def compare_zip_md5 (md5 : String → String) (fetch : FetchResult) (s : DestState) :
    Outcome × DestState × List Event :=
  match fetch with
  | .err404 body =>
      -- `raise_for_status` raised, the handler only printed; the error body
      -- is written to latest.zip and `zipfile.ZipFile` then raises an
      -- uncaught BadZipFile.
      (.crash, { s with latest_zip := some (.raw body) }, [])
  | .ok entries =>
      -- latest.zip is written, opened, and every entry is digested in
      -- listing order into comparison_table.
      let comparison_table := entries.map (fun entry => md5 entry.2)
      match s.current_md5 with
      | some current_archive_md5 =>
          -- the stored digest is appended AFTER the per-entry digests and
          -- the code compares comparison_table[0] with comparison_table[1]
          match comparison_table ++ [current_archive_md5] with
          | t0 :: t1 :: _ =>
              if t0 = t1 then
                (.retFalse, { s with latest_zip := none }, [])
              else
                (.retTrue,
                 { current_md5 := some t0,
                   files := extractAll s.files entries,
                   latest_zip := none },
                 [.extract, .writeRecord t0])
          | _ =>
              -- IndexError: "Unable to compare MD5 values."; note that
              -- latest.zip is never removed on this path.
              (.retNone, { s with latest_zip := some (.zipOf entries) }, [])
      | none =>
          -- FileNotFoundError handler: unconditional update.
          match comparison_table with
          | t0 :: _ =>
              (.retTrue,
               { current_md5 := some t0,
                 files := extractAll s.files entries,
                 latest_zip := none },
               [.extract, .writeRecord t0])
          | [] =>
              -- extractall/remove succeed, open("w+") creates an empty
              -- current_md5.txt, then comparison_table[0] raises an
              -- uncaught IndexError.
              (.crash,
               { current_md5 := some "",
                 files := extractAll s.files entries,
                 latest_zip := none },
               [.extract])

/-- Python slice `s[a:b]` on a string (non-negative bounds, clipped). -/
def pySlice (s : String) (a b : Nat) : String :=
  ((s.toList.drop a).take (b - a)).asString

/-- `clean_date` of `TireProject.py` (lines 99–105), on the string form of
its argument: `str(date)` is the input. -/
def clean_date (date : String) : String :=
  let dirty_date := date
  if dirty_date ≠ "nan" then
    pySlice dirty_date 0 4 ++ "-" ++ pySlice dirty_date 4 6 ++ "-" ++ pySlice dirty_date 6 8
  else
    "N/A"

/-- A concrete collision-free digest function used for closed instances. -/
def hashId : String → String := fun s => s

theorem getFile_updateFile_self (fs : List (String × String)) (n c : String) :
    getFile (updateFile fs n c) n = some c := by
  induction fs with
  | nil => simp [updateFile, getFile]
  | cons p rest ih =>
      obtain ⟨m, d⟩ := p
      by_cases hmn : m = n
      · simp [updateFile, hmn, getFile]
      · simp [updateFile, hmn, getFile, ih]

theorem getFile_updateFile_ne (fs : List (String × String)) (m d n : String)
    (hmn : m ≠ n) : getFile (updateFile fs m d) n = getFile fs n := by
  induction fs with
  | nil => simp [updateFile, getFile, hmn]
  | cons p rest ih =>
      obtain ⟨k, e⟩ := p
      by_cases hkm : k = m
      · simp [updateFile, hkm, getFile, hmn]
      · simp [updateFile, hkm, getFile, ih]

theorem getFile_extractAll_not_mem (entries : List (String × String))
    (fs : List (String × String)) (n : String)
    (hn : n ∉ entries.map Prod.fst) :
    getFile (extractAll fs entries) n = getFile fs n := by
  induction entries generalizing fs with
  | nil => rfl
  | cons e rest ih =>
      simp only [List.map_cons, List.mem_cons] at hn
      push_neg at hn
      have step : extractAll fs (e :: rest) = extractAll (updateFile fs e.1 e.2) rest := rfl
      rw [step, ih _ hn.2, getFile_updateFile_ne fs e.1 e.2 n (Ne.symm hn.1)]

theorem getFile_extractAll_mem (entries : List (String × String))
    (fs : List (String × String)) (n c : String)
    (hnd : (entries.map Prod.fst).Nodup) (hmem : (n, c) ∈ entries) :
    getFile (extractAll fs entries) n = some c := by
  induction entries generalizing fs with
  | nil => cases hmem
  | cons e rest ih =>
      simp only [List.map_cons, List.nodup_cons] at hnd
      have step : extractAll fs (e :: rest) = extractAll (updateFile fs e.1 e.2) rest := rfl
      rcases List.mem_cons.mp hmem with heq | hrest
      · subst heq
        rw [step]
        have hnot : n ∉ rest.map Prod.fst := hnd.1
        rw [getFile_extractAll_not_mem rest _ n hnot]
        exact getFile_updateFile_self fs n c
      · rw [step]
        exact ih _ hnd.2 hrest

theorem czm_err404 (md5 : String → String) (body : String) (s : DestState) :
    compare_zip_md5 md5 (.err404 body) s
      = (.crash, ⟨s.current_md5, s.files, some (.raw body)⟩, []) := rfl

theorem czm_first_run_cons (md5 : String → String) (n c : String)
    (rest : List (String × String)) (f : List (String × String)) (t : Option TempFile) :
    compare_zip_md5 md5 (.ok ((n, c) :: rest)) ⟨none, f, t⟩
      = (.retTrue, ⟨some (md5 c), extractAll f ((n, c) :: rest), none⟩,
         [.extract, .writeRecord (md5 c)]) := rfl

theorem czm_first_run_nil (md5 : String → String)
    (f : List (String × String)) (t : Option TempFile) :
    compare_zip_md5 md5 (.ok []) ⟨none, f, t⟩
      = (.crash, ⟨some "", f, none⟩, [.extract]) := rfl

theorem czm_rec_nil (md5 : String → String) (stored : String)
    (f : List (String × String)) (t : Option TempFile) :
    compare_zip_md5 md5 (.ok []) ⟨some stored, f, t⟩
      = (.retNone, ⟨some stored, f, some (.zipOf [])⟩, []) := rfl

theorem czm_rec_single (md5 : String → String) (n c stored : String)
    (f : List (String × String)) (t : Option TempFile) :
    compare_zip_md5 md5 (.ok [(n, c)]) ⟨some stored, f, t⟩
      = if md5 c = stored then (.retFalse, ⟨some stored, f, none⟩, [])
        else (.retTrue, ⟨some (md5 c), extractAll f [(n, c)], none⟩,
              [.extract, .writeRecord (md5 c)]) := rfl

theorem czm_rec_two (md5 : String → String) (n0 c0 n1 c1 stored : String)
    (rest : List (String × String)) (f : List (String × String)) (t : Option TempFile) :
    compare_zip_md5 md5 (.ok ((n0, c0) :: (n1, c1) :: rest)) ⟨some stored, f, t⟩
      = if md5 c0 = md5 c1 then (.retFalse, ⟨some stored, f, none⟩, [])
        else (.retTrue,
              ⟨some (md5 c0), extractAll f ((n0, c0) :: (n1, c1) :: rest), none⟩,
              [.extract, .writeRecord (md5 c0)]) := rfl

/-- C1, counterexample: with a stored record equal to the first entry's
digest but a two-entry archive whose second entry digests differently, the
call returns `True` and mutates the extracted files, contrary to the claim
that it returns `false` and leaves everything untouched. -/
theorem c1_counterexample :
    hashId "x" = "x"
    ∧ (compare_zip_md5 hashId (FetchResult.ok [("a", "x"), ("b", "y")])
        ⟨some "x", [], none⟩).1 = Outcome.retTrue
    ∧ (compare_zip_md5 hashId (FetchResult.ok [("a", "x"), ("b", "y")])
        ⟨some "x", [], none⟩).2.1.files ≠ [] := by
  refine ⟨rfl, rfl, ?_⟩
  decide

/-- C1, amended: when the record equals the first entry's digest AND the
archive is single-entry (or its second entry's digest coincides with the
first's), `compare_zip_md5` returns `False`, leaves the extracted files
untouched and does not rewrite the record. -/
theorem c1_amended (md5 : String → String) (s : DestState) (n c stored : String)
    (rest : List (String × String))
    (hrec : s.current_md5 = some stored)
    (hfirst : md5 c = stored)
    (hsecond : rest = [] ∨ ∃ n1 c1 rest1, rest = (n1, c1) :: rest1 ∧ md5 c1 = md5 c) :
    (compare_zip_md5 md5 (.ok ((n, c) :: rest)) s).1 = Outcome.retFalse
    ∧ (compare_zip_md5 md5 (.ok ((n, c) :: rest)) s).2.1.files = s.files
    ∧ (compare_zip_md5 md5 (.ok ((n, c) :: rest)) s).2.1.current_md5 = s.current_md5 := by
  obtain ⟨r, f, t⟩ := s
  simp only at hrec
  subst hrec
  rcases hsecond with hnil | ⟨n1, c1, rest1, hcons, heq⟩
  · subst hnil
    rw [czm_rec_single md5 n c stored f t, if_pos hfirst]
    exact ⟨rfl, rfl, rfl⟩
  · subst hcons
    rw [czm_rec_two md5 n c n1 c1 stored rest1 f t, if_pos heq.symm]
    exact ⟨rfl, rfl, rfl⟩

/-- C1, witness for the amended theorem at a concrete single-entry input. -/
theorem c1_witness :
    (compare_zip_md5 hashId (.ok [("a", "x")]) ⟨some "x", [("a", "x")], none⟩).1
      = Outcome.retFalse
    ∧ (compare_zip_md5 hashId (.ok [("a", "x")]) ⟨some "x", [("a", "x")], none⟩).2.1.files
      = (⟨some "x", [("a", "x")], none⟩ : DestState).files
    ∧ (compare_zip_md5 hashId (.ok [("a", "x")]) ⟨some "x", [("a", "x")], none⟩).2.1.current_md5
      = (⟨some "x", [("a", "x")], none⟩ : DestState).current_md5 :=
  c1_amended hashId ⟨some "x", [("a", "x")], none⟩ "a" "x" "x" [] rfl rfl (Or.inl rfl)

/-- C2, counterexample: record present and different from the first entry's
digest, but the archive has two entries with equal digests — the call
returns `False`, extracts nothing and leaves the stale record, contrary to
the claim that it returns `true`, extracts and persists the new digest. -/
theorem c2_counterexample :
    hashId "x" ≠ "z"
    ∧ (compare_zip_md5 hashId (FetchResult.ok [("a", "x"), ("b", "x")])
        ⟨some "z", [], none⟩).1 = Outcome.retFalse
    ∧ (compare_zip_md5 hashId (FetchResult.ok [("a", "x"), ("b", "x")])
        ⟨some "z", [], none⟩).2.1 = ⟨some "z", [], none⟩ := by
  refine ⟨?_, rfl, rfl⟩
  decide

/-- C2, amended: restricted to archives with a first entry where either no
record exists, or the record exists, the archive is single-entry and its
digest differs from the stored one: the call returns `True`, every entry is
present in the destination afterwards, and the record is the first entry's
digest. -/
theorem c2_amended (md5 : String → String) (s : DestState) (n c : String)
    (rest : List (String × String))
    (hnd : (((n, c) :: rest).map Prod.fst).Nodup)
    (hcase : s.current_md5 = none
      ∨ (rest = [] ∧ ∃ stored, s.current_md5 = some stored ∧ md5 c ≠ stored)) :
    (compare_zip_md5 md5 (.ok ((n, c) :: rest)) s).1 = Outcome.retTrue
    ∧ (compare_zip_md5 md5 (.ok ((n, c) :: rest)) s).2.1.current_md5 = some (md5 c)
    ∧ ∀ p ∈ (n, c) :: rest,
        getFile ((compare_zip_md5 md5 (.ok ((n, c) :: rest)) s).2.1.files) p.1 = some p.2 := by
  obtain ⟨r, f, t⟩ := s
  rcases hcase with hnone | ⟨hnil, stored, hsome, hne⟩
  · simp only at hnone
    subst hnone
    rw [czm_first_run_cons md5 n c rest f t]
    refine ⟨rfl, rfl, ?_⟩
    intro p hp
    exact getFile_extractAll_mem _ _ p.1 p.2 hnd (by simpa using hp)
  · subst hnil
    simp only at hsome
    subst hsome
    rw [czm_rec_single md5 n c stored f t, if_neg hne]
    refine ⟨rfl, rfl, ?_⟩
    intro p hp
    exact getFile_extractAll_mem _ _ p.1 p.2 hnd (by simpa using hp)

/-- C2, witness for the amended theorem on a first run with one entry. -/
theorem c2_witness :
    (compare_zip_md5 hashId (.ok [("a", "x")]) ⟨none, [], none⟩).1 = Outcome.retTrue
    ∧ (compare_zip_md5 hashId (.ok [("a", "x")]) ⟨none, [], none⟩).2.1.current_md5
      = some (hashId "x")
    ∧ ∀ p ∈ [("a", "x")],
        getFile ((compare_zip_md5 hashId (.ok [("a", "x")]) ⟨none, [], none⟩).2.1.files) p.1
          = some p.2 :=
  c2_amended hashId ⟨none, [], none⟩ "a" "x" [] (by simp) (Or.inl rfl)

/-- C5, confirmed: with a record present and an archive of at least two
entries, the change decision is exactly a comparison of the first entry's
digest with the second entry's digest, and it is insensitive to the stored
digest read from `current_md5.txt`. -/
theorem c5_second_entry_comparison (md5 : String → String) (s : DestState)
    (stored stored2 n0 c0 n1 c1 : String) (rest : List (String × String))
    (hrec : s.current_md5 = some stored) :
    ((compare_zip_md5 md5 (.ok ((n0, c0) :: (n1, c1) :: rest)) s).1 = Outcome.retFalse
      ↔ md5 c0 = md5 c1)
    ∧ ((compare_zip_md5 md5 (.ok ((n0, c0) :: (n1, c1) :: rest)) s).1 = Outcome.retTrue
      ↔ md5 c0 ≠ md5 c1)
    ∧ (compare_zip_md5 md5 (.ok ((n0, c0) :: (n1, c1) :: rest))
        ⟨some stored2, s.files, s.latest_zip⟩).1
      = (compare_zip_md5 md5 (.ok ((n0, c0) :: (n1, c1) :: rest)) s).1 := by
  obtain ⟨r, f, t⟩ := s
  simp only at hrec
  subst hrec
  rw [czm_rec_two md5 n0 c0 n1 c1 stored rest f t]
  rw [czm_rec_two md5 n0 c0 n1 c1 stored2 rest f t]
  by_cases h01 : md5 c0 = md5 c1
  · simp [h01]
  · simp [h01]

/-- C5, witness at a concrete two-entry archive and two stored digests. -/
theorem c5_witness :
    ((compare_zip_md5 hashId (.ok [("a", "x"), ("b", "y")]) ⟨some "s0", [], none⟩).1
        = Outcome.retFalse ↔ hashId "x" = hashId "y")
    ∧ ((compare_zip_md5 hashId (.ok [("a", "x"), ("b", "y")]) ⟨some "s0", [], none⟩).1
        = Outcome.retTrue ↔ hashId "x" ≠ hashId "y")
    ∧ (compare_zip_md5 hashId (.ok [("a", "x"), ("b", "y")])
        ⟨some "zz", (⟨some "s0", [], none⟩ : DestState).files,
          (⟨some "s0", [], none⟩ : DestState).latest_zip⟩).1
      = (compare_zip_md5 hashId (.ok [("a", "x"), ("b", "y")]) ⟨some "s0", [], none⟩).1 :=
  c5_second_entry_comparison hashId ⟨some "s0", [], none⟩ "s0" "zz" "a" "x" "b" "y" [] rfl

/-- C3, code behaviour at the failing input: on an HTTP error status the
routine neither hashes nor extracts and leaves the record alone, but it
writes the error body to `latest.zip` (which survives) and then dies with
an uncaught `BadZipFile` instead of aborting cleanly — the destination is
NOT left exactly as it was. -/
theorem c3_fetch_failure_leaves_temp :
    compare_zip_md5 hashId (FetchResult.err404 "404 not found")
        ⟨some "r", [("a", "x")], none⟩
      = (Outcome.crash, ⟨some "r", [("a", "x")], some (TempFile.raw "404 not found")⟩, []) := rfl

/-- C4, code behaviour at the failing inputs: on a zero-entry archive with
a record present the routine returns `None` and writes nothing, but leaves
`latest.zip` in the destination; with no record present it extracts
nothing, creates an EMPTY `current_md5.txt`, and dies with an uncaught
`IndexError` — state is mutated, contrary to the claim. -/
theorem c4_empty_archive_mutates_state :
    (compare_zip_md5 hashId (FetchResult.ok []) ⟨some "r", [("a", "x")], none⟩
      = (Outcome.retNone, ⟨some "r", [("a", "x")], some (TempFile.zipOf [])⟩, []))
    ∧ (compare_zip_md5 hashId (FetchResult.ok []) ⟨none, [], none⟩
      = (Outcome.crash, ⟨some "", [], none⟩, [Event.extract])) := ⟨rfl, rfl⟩

/-- C6, counterexample: a first run on a zero-entry archive creates the
record as an empty file even though the run never reported a change and
the archive has no first entry whose digest it could hold — the invariant
fails. -/
theorem c6_counterexample :
    (compare_zip_md5 hashId (FetchResult.ok []) ⟨none, [], none⟩).2.1.current_md5 = some ""
    ∧ (compare_zip_md5 hashId (FetchResult.ok []) ⟨none, [], none⟩).1 ≠ Outcome.retTrue
    ∧ (compare_zip_md5 hashId (FetchResult.ok []) ⟨none, [], none⟩).1 ≠ Outcome.retFalse := by
  refine ⟨rfl, ?_, ?_⟩ <;> decide

/-- C6, amended: for every invocation whose downloaded archive (when the
fetch succeeds) has at least one entry, the record is unchanged on any run
that reports "no change", and in every case it is either left unchanged or
written exactly once with the first entry's digest by a run returning
`True`. -/
theorem c6_amended (md5 : String → String) (fetch : FetchResult) (s : DestState)
    (hne : ∀ entries, fetch = FetchResult.ok entries → entries ≠ []) :
    ((compare_zip_md5 md5 fetch s).1 = Outcome.retFalse →
      (compare_zip_md5 md5 fetch s).2.1.current_md5 = s.current_md5)
    ∧ ((compare_zip_md5 md5 fetch s).2.1.current_md5 = s.current_md5
      ∨ ((compare_zip_md5 md5 fetch s).1 = Outcome.retTrue
        ∧ ∃ n c rest, fetch = FetchResult.ok ((n, c) :: rest)
          ∧ (compare_zip_md5 md5 fetch s).2.1.current_md5 = some (md5 c))) := by
  obtain ⟨r, f, t⟩ := s
  cases fetch with
  | err404 body =>
      rw [czm_err404 md5 body ⟨r, f, t⟩]
      exact ⟨fun h => rfl, Or.inl rfl⟩
  | ok entries =>
      cases entries with
      | nil => exact absurd rfl (hne [] rfl)
      | cons e rest =>
          obtain ⟨n, c⟩ := e
          cases r with
          | none =>
              rw [czm_first_run_cons md5 n c rest f t]
              exact ⟨fun h => Outcome.noConfusion h, Or.inr ⟨rfl, ⟨n, c, rest, rfl, rfl⟩⟩⟩
          | some stored =>
              cases rest with
              | nil =>
                  rw [czm_rec_single md5 n c stored f t]
                  by_cases h : md5 c = stored
                  · rw [if_pos h]
                    exact ⟨fun _ => rfl, Or.inl rfl⟩
                  · rw [if_neg h]
                    exact ⟨fun hh => Outcome.noConfusion hh, Or.inr ⟨rfl, ⟨n, c, [], rfl, rfl⟩⟩⟩
              | cons e1 rest1 =>
                  obtain ⟨n1, c1⟩ := e1
                  rw [czm_rec_two md5 n c n1 c1 stored rest1 f t]
                  by_cases h : md5 c = md5 c1
                  · rw [if_pos h]
                    exact ⟨fun _ => rfl, Or.inl rfl⟩
                  · rw [if_neg h]
                    exact ⟨fun hh => Outcome.noConfusion hh,
                           Or.inr ⟨rfl, ⟨n, c, (n1, c1) :: rest1, rfl, rfl⟩⟩⟩

/-- C6, witness for the amended invariant on a concrete first run. -/
theorem c6_witness :
    ((compare_zip_md5 hashId (FetchResult.ok [("a", "x")]) ⟨none, [], none⟩).1
        = Outcome.retFalse →
      (compare_zip_md5 hashId (FetchResult.ok [("a", "x")])
        ⟨none, [], none⟩).2.1.current_md5 = (⟨none, [], none⟩ : DestState).current_md5)
    ∧ ((compare_zip_md5 hashId (FetchResult.ok [("a", "x")])
          ⟨none, [], none⟩).2.1.current_md5 = (⟨none, [], none⟩ : DestState).current_md5
      ∨ ((compare_zip_md5 hashId (FetchResult.ok [("a", "x")]) ⟨none, [], none⟩).1
          = Outcome.retTrue
        ∧ ∃ n c rest, FetchResult.ok [("a", "x")] = FetchResult.ok ((n, c) :: rest)
          ∧ (compare_zip_md5 hashId (FetchResult.ok [("a", "x")])
              ⟨none, [], none⟩).2.1.current_md5 = some (hashId c))) :=
  c6_amended hashId (FetchResult.ok [("a", "x")]) ⟨none, [], none⟩
    (fun entries h => by cases h; decide)

/-- C7, counterexample: with an unchanged remote two-entry archive whose
entries digest differently, the second call returns `True`, not `false` as
the idempotence claim requires. -/
theorem c7_counterexample :
    (compare_zip_md5 hashId (FetchResult.ok [("a", "x"), ("b", "y")])
        ((compare_zip_md5 hashId (FetchResult.ok [("a", "x"), ("b", "y")])
          ⟨none, [], none⟩).2.1)).1 = Outcome.retTrue := rfl

/-- C7, amended: for single-entry archives, calling `compare_zip_md5` twice
in succession on the same archive yields `False` on the second call and
the second call leaves the on-disk state exactly as after the first. -/
theorem c7_amended (md5 : String → String) (n c : String) (s : DestState) :
    (compare_zip_md5 md5 (FetchResult.ok [(n, c)])
        ((compare_zip_md5 md5 (FetchResult.ok [(n, c)]) s).2.1)).1 = Outcome.retFalse
    ∧ (compare_zip_md5 md5 (FetchResult.ok [(n, c)])
        ((compare_zip_md5 md5 (FetchResult.ok [(n, c)]) s).2.1)).2.1
      = (compare_zip_md5 md5 (FetchResult.ok [(n, c)]) s).2.1 := by
  obtain ⟨r, f, t⟩ := s
  cases r with
  | none =>
      rw [czm_first_run_cons md5 n c [] f t]
      rw [czm_rec_single md5 n c (md5 c) (extractAll f [(n, c)]) none, if_pos rfl]
      exact ⟨rfl, rfl⟩
  | some stored =>
      by_cases h : md5 c = stored
      · rw [czm_rec_single md5 n c stored f t, if_pos h]
        rw [czm_rec_single md5 n c stored f none, if_pos h]
        exact ⟨rfl, rfl⟩
      · rw [czm_rec_single md5 n c stored f t, if_neg h]
        rw [czm_rec_single md5 n c (md5 c) (extractAll f [(n, c)]) none, if_pos rfl]
        exact ⟨rfl, rfl⟩

/-- C8, confirmed: the single-entry scenario.  From an empty destination,
pulling the archive containing only `a.txt = "hello"` returns `True`,
materialises `a.txt` with `"hello"` and records its digest; an identical
second pull returns `False` leaving the state unchanged; a pull after the
entry changes to `"world"` returns `True`, overwrites `a.txt` and records
the new digest. -/
theorem c8_scenario (md5 : String → String) (hdiff : md5 "hello" ≠ md5 "world") :
    (compare_zip_md5 md5 (FetchResult.ok [("a.txt", "hello")]) ⟨none, [], none⟩).1
      = Outcome.retTrue
    ∧ (compare_zip_md5 md5 (FetchResult.ok [("a.txt", "hello")]) ⟨none, [], none⟩).2.1
      = ⟨some (md5 "hello"), [("a.txt", "hello")], none⟩
    ∧ (compare_zip_md5 md5 (FetchResult.ok [("a.txt", "hello")])
        ⟨some (md5 "hello"), [("a.txt", "hello")], none⟩).1 = Outcome.retFalse
    ∧ (compare_zip_md5 md5 (FetchResult.ok [("a.txt", "hello")])
        ⟨some (md5 "hello"), [("a.txt", "hello")], none⟩).2.1
      = ⟨some (md5 "hello"), [("a.txt", "hello")], none⟩
    ∧ (compare_zip_md5 md5 (FetchResult.ok [("a.txt", "world")])
        ⟨some (md5 "hello"), [("a.txt", "hello")], none⟩).1 = Outcome.retTrue
    ∧ (compare_zip_md5 md5 (FetchResult.ok [("a.txt", "world")])
        ⟨some (md5 "hello"), [("a.txt", "hello")], none⟩).2.1
      = ⟨some (md5 "world"), [("a.txt", "world")], none⟩
    ∧ getFile [("a.txt", "hello")] "a.txt" = some "hello"
    ∧ getFile [("a.txt", "world")] "a.txt" = some "world" := by
  have h2 := czm_rec_single md5 "a.txt" "hello" (md5 "hello") [("a.txt", "hello")] none
  rw [if_pos rfl] at h2
  have h3 := czm_rec_single md5 "a.txt" "world" (md5 "hello") [("a.txt", "hello")] none
  rw [if_neg (fun hh => hdiff hh.symm)] at h3
  refine ⟨rfl, rfl, ?_, ?_, ?_, ?_, rfl, rfl⟩
  · rw [h2]
  · rw [h2]
  · rw [h3]
  · rw [h3]
    rfl

/-- C8, witness instantiating the scenario with a concrete collision-free
digest function. -/
theorem c8_witness :
    (compare_zip_md5 hashId (FetchResult.ok [("a.txt", "hello")]) ⟨none, [], none⟩).1
      = Outcome.retTrue
    ∧ (compare_zip_md5 hashId (FetchResult.ok [("a.txt", "hello")]) ⟨none, [], none⟩).2.1
      = ⟨some (hashId "hello"), [("a.txt", "hello")], none⟩
    ∧ (compare_zip_md5 hashId (FetchResult.ok [("a.txt", "hello")])
        ⟨some (hashId "hello"), [("a.txt", "hello")], none⟩).1 = Outcome.retFalse
    ∧ (compare_zip_md5 hashId (FetchResult.ok [("a.txt", "hello")])
        ⟨some (hashId "hello"), [("a.txt", "hello")], none⟩).2.1
      = ⟨some (hashId "hello"), [("a.txt", "hello")], none⟩
    ∧ (compare_zip_md5 hashId (FetchResult.ok [("a.txt", "world")])
        ⟨some (hashId "hello"), [("a.txt", "hello")], none⟩).1 = Outcome.retTrue
    ∧ (compare_zip_md5 hashId (FetchResult.ok [("a.txt", "world")])
        ⟨some (hashId "hello"), [("a.txt", "hello")], none⟩).2.1
      = ⟨some (hashId "world"), [("a.txt", "world")], none⟩
    ∧ getFile [("a.txt", "hello")] "a.txt" = some "hello"
    ∧ getFile [("a.txt", "world")] "a.txt" = some "world" :=
  c8_scenario hashId (by decide)

theorem trace_shape_ok (tr : List Event)
    (hshape : tr = [] ∨ tr = [Event.extract]
      ∨ ∃ d, tr = [Event.extract, Event.writeRecord d]) :
    tr.countP isWrite ≤ 1
    ∧ ∀ i, (hi : i < tr.length) → isWrite (tr.get ⟨i, hi⟩) = true →
        ∃ j, ∃ hj : j < tr.length, j < i ∧ tr.get ⟨j, hj⟩ = Event.extract := by
  rcases hshape with h | h | ⟨d, h⟩ <;> subst h
  · refine ⟨by decide, ?_⟩
    intro i hi
    exact absurd hi (by simp)
  · refine ⟨by decide, ?_⟩
    intro i hi hw
    simp only [List.length_cons, List.length_nil] at hi
    interval_cases i
    simp [isWrite] at hw
  · refine ⟨by simp [List.countP_cons, isWrite], ?_⟩
    intro i hi hw
    simp only [List.length_cons, List.length_nil] at hi
    interval_cases i
    · simp [List.get, isWrite] at hw
    · exact ⟨0, by simp, by omega, rfl⟩

/-- C9, confirmed: in every invocation, a digest is written to the
fingerprint record at most once, and whenever an extraction and a record
write both occur, the extraction strictly precedes the write in the
mutation-event trace. -/
theorem c9_write_after_extract (md5 : String → String) (fetch : FetchResult) (s : DestState) :
    ((compare_zip_md5 md5 fetch s).2.2).countP isWrite ≤ 1
    ∧ ∀ i, (hi : i < ((compare_zip_md5 md5 fetch s).2.2).length) →
        isWrite (((compare_zip_md5 md5 fetch s).2.2).get ⟨i, hi⟩) = true →
        ∃ j, ∃ hj : j < ((compare_zip_md5 md5 fetch s).2.2).length,
          j < i ∧ ((compare_zip_md5 md5 fetch s).2.2).get ⟨j, hj⟩ = Event.extract := by
  apply trace_shape_ok
  obtain ⟨r, f, t⟩ := s
  cases fetch with
  | err404 body => exact Or.inl rfl
  | ok entries =>
      cases r with
      | none =>
          cases entries with
          | nil => exact Or.inr (Or.inl rfl)
          | cons e rest =>
              obtain ⟨n, c⟩ := e
              exact Or.inr (Or.inr ⟨md5 c, rfl⟩)
      | some stored =>
          cases entries with
          | nil => exact Or.inl rfl
          | cons e rest =>
              obtain ⟨n, c⟩ := e
              cases rest with
              | nil =>
                  by_cases h : md5 c = stored
                  · rw [czm_rec_single md5 n c stored f t, if_pos h]
                    exact Or.inl rfl
                  · rw [czm_rec_single md5 n c stored f t, if_neg h]
                    exact Or.inr (Or.inr ⟨md5 c, rfl⟩)
              | cons e1 rest1 =>
                  obtain ⟨n1, c1⟩ := e1
                  by_cases h : md5 c = md5 c1
                  · rw [czm_rec_two md5 n c n1 c1 stored rest1 f t, if_pos h]
                    exact Or.inl rfl
                  · rw [czm_rec_two md5 n c n1 c1 stored rest1 f t, if_neg h]
                    exact Or.inr (Or.inr ⟨md5 c, rfl⟩)

/-- C9, witness on a concrete updating run, whose trace is an extraction
followed by one record write. -/
theorem c9_witness :
    ((compare_zip_md5 hashId (FetchResult.ok [("a", "x")]) ⟨none, [], none⟩).2.2).countP
        isWrite ≤ 1
    ∧ ∀ i, (hi : i <
          ((compare_zip_md5 hashId (FetchResult.ok [("a", "x")]) ⟨none, [], none⟩).2.2).length) →
        isWrite (((compare_zip_md5 hashId (FetchResult.ok [("a", "x")])
            ⟨none, [], none⟩).2.2).get ⟨i, hi⟩) = true →
        ∃ j, ∃ hj : j <
            ((compare_zip_md5 hashId (FetchResult.ok [("a", "x")]) ⟨none, [], none⟩).2.2).length,
          j < i ∧ ((compare_zip_md5 hashId (FetchResult.ok [("a", "x")])
            ⟨none, [], none⟩).2.2).get ⟨j, hj⟩ = Event.extract :=
  c9_write_after_extract hashId (FetchResult.ok [("a", "x")]) ⟨none, [], none⟩

theorem clean_date_eq_slices (s : String) (h : s ≠ "nan") :
    clean_date s
      = (s.toList.take 4).asString ++ "-" ++ ((s.toList.drop 4).take 2).asString
          ++ "-" ++ ((s.toList.drop 6).take 2).asString := by
  simp [clean_date, pySlice, h]

/-- C10, confirmed: for any input whose string form is not `"nan"`,
`clean_date` joins the first four characters, characters five to six and
characters seven to eight with hyphens (so an eight-character string
`YYYYMMDD` maps to `YYYY-MM-DD`), and for the string form `"nan"` it
returns `"N/A"`. -/
theorem c10_clean_date :
    (∀ s : String, s ≠ "nan" →
      clean_date s
        = (s.toList.take 4).asString ++ "-" ++ ((s.toList.drop 4).take 2).asString
            ++ "-" ++ ((s.toList.drop 6).take 2).asString)
    ∧ (∀ a1 a2 a3 a4 a5 a6 a7 a8 : Char,
        clean_date (String.mk [a1, a2, a3, a4, a5, a6, a7, a8])
          = String.mk [a1, a2, a3, a4, '-', a5, a6, '-', a7, a8])
    ∧ clean_date "nan" = "N/A" := by
  refine ⟨fun s h => clean_date_eq_slices s h, ?_, by decide⟩
  intro a1 a2 a3 a4 a5 a6 a7 a8
  have hne : String.mk [a1, a2, a3, a4, a5, a6, a7, a8] ≠ "nan" := by
    intro hcontra
    have hlen := congrArg (fun z => z.data.length) hcontra
    simp at hlen
  rw [clean_date_eq_slices _ hne]
  rfl

/-- C10, witness: an eight-digit date string is hyphenated as claimed and
`"nan"` maps to `"N/A"`. -/
theorem c10_witness :
    clean_date (String.mk ['2', '0', '2', '1', '0', '1', '3', '0'])
      = String.mk ['2', '0', '2', '1', '-', '0', '1', '-', '3', '0']
    ∧ clean_date "nan" = "N/A" :=
  ⟨c10_clean_date.2.1 '2' '0' '2' '1' '0' '1' '3' '0', c10_clean_date.2.2⟩

end TireProject
